import Mathlib

/-!
Shallow embedding of the GoPack message-delivery library: the packet codec
(`Encode` / `Decode`), the in-memory storage with its binary heap and index
map (`memoryStorage`), the inbound dispatch (`handle`), and the writer's
retry scheduler (`retry` / `writeStep`).  Bytes are modelled as `Nat`
(callers keep them below 256), Go `uint16` values as `Nat` below 65536 with
explicit `% 65536` where Go truncates, Go `int`/`int64` as `Int`, byte
slices as `List Nat`, and Go maps as association lists with
overwrite-on-set semantics.  A nil slice is modelled as the empty list.
-/

/-- The in-memory record for one message, mirroring `Packet` in protocol.go.
`RetryTimes` is a Go `int` and `Timestamp` a Go `int64`, hence `Int`. -/
structure Packet where
  MsgType : Nat
  Qos : Nat
  Dup : Bool
  MsgID : Nat
  RemainingLength : Nat
  TotalLength : Nat
  Payload : List Nat
  Buffer : List Nat
  Confirm : Bool
  RetryTimes : Int
  Timestamp : Int
deriving Repr, DecidableEq

/-- The zero value of `Packet` (what `new(Packet)` yields in Go). -/
def defaultPacket : Packet :=
  { MsgType := 0, Qos := 0, Dup := false, MsgID := 0, RemainingLength := 0,
    TotalLength := 0, Payload := [], Buffer := [], Confirm := false,
    RetryTimes := 0, Timestamp := 0 }

instance : Inhabited Packet := ⟨defaultPacket⟩

/-- `Clone` from protocol.go: a field-by-field shallow copy. -/
def Packet.Clone (packet : Packet) : Packet :=
  { MsgType := packet.MsgType, Qos := packet.Qos, Dup := packet.Dup,
    MsgID := packet.MsgID, RemainingLength := packet.RemainingLength,
    TotalLength := packet.TotalLength, Payload := packet.Payload,
    Buffer := packet.Buffer, Confirm := packet.Confirm,
    RetryTimes := packet.RetryTimes, Timestamp := packet.Timestamp }

/-- `byteToBool` from protocol.go: 1 maps to true, anything else to false. -/
def byteToBool (b : Nat) : Bool := b == 1

/-- `encodeUint16` from protocol.go: big-endian two-byte encoding of a
uint16 value (`byte(v >> 8)`, `byte(v)`). -/
def encodeUint16 (num : Nat) : List Nat :=
  [num / 256 % 256, num % 256]

/-- `decodeUint16` from protocol.go, reading from a byte stream modelled as
the remaining list: fails (ErrDecode) when fewer than two bytes remain,
otherwise returns the big-endian value and the rest of the stream. -/
def decodeUint16 (b : List Nat) : Option (Nat × List Nat) :=
  match b with
  | b0 :: b1 :: rest => some (b0 * 256 + b1, rest)
  | _ => none

/-- `Encode` from protocol.go.  `remainingLength` is `uint16(len(payload))`,
the fixed header is `byte((msgType<<4) | (qos<<2) | (dup<<1))` computed in
byte (mod 256) arithmetic, and the framed buffer is header bytes followed by
the payload.  A nil payload behaves as the empty list. -/
def Encode (msgType qos dup msgID : Nat) (payload : List Nat) : Packet :=
  let remainingLength := payload.length % 65536
  let fixedHeader := ((msgType <<< 4) % 256) ||| ((qos <<< 2) % 256) ||| ((dup <<< 1) % 256)
  let buffer := fixedHeader :: (encodeUint16 msgID ++ encodeUint16 remainingLength ++ payload)
  { MsgType := msgType, Qos := qos, Dup := byteToBool dup, MsgID := msgID,
    RemainingLength := remainingLength,
    TotalLength := (5 + remainingLength) % 65536,
    Payload := payload, Buffer := buffer,
    Confirm := false, RetryTimes := 0, Timestamp := 0 }

/-- `Decode` from protocol.go.  Reads the fixed header byte, `msg_id`,
`remaining_length`, then exactly `remaining_length` payload bytes; any short
read yields `none` (ErrDecode).  The decoded packet keeps the whole input
as its `Buffer` and has zero `Timestamp`, `RetryTimes`, `Confirm` and
`TotalLength` (never assigned by the Go code). -/
def Decode (buf : List Nat) : Option Packet :=
  match buf with
  | [] => none
  | fixedHeader :: rest =>
    match decodeUint16 rest with
    | none => none
    | some (msgID, rest2) =>
      match decodeUint16 rest2 with
      | none => none
      | some (remainingLength, rest3) =>
        if rest3.length < remainingLength then none
        else
          some { MsgType := fixedHeader >>> 4,
                 Qos := (fixedHeader &&& 0xf) >>> 2,
                 Dup := byteToBool ((fixedHeader &&& 0x3) >>> 1),
                 MsgID := msgID,
                 RemainingLength := remainingLength,
                 TotalLength := 0,
                 Payload := rest3.take remainingLength,
                 Buffer := buf,
                 Confirm := false, RetryTimes := 0, Timestamp := 0 }

/-- Go map read returning an optional value: the first binding of the key
in the association list. -/
def mapGet {α : Type} (m : List (Nat × α)) (k : Nat) : Option α :=
  (m.find? (fun kv => kv.1 == k)).map (fun kv => kv.2)

/-- Go map assignment: overwrite the binding when the key is present,
otherwise append a new binding. -/
def mapSet {α : Type} (m : List (Nat × α)) (k : Nat) (v : α) : List (Nat × α) :=
  if m.any (fun kv => kv.1 == k) then
    m.map (fun kv => if kv.1 == k then (k, v) else kv)
  else m ++ [(k, v)]

/-- Go `delete` on a map: remove every binding of the key. -/
def mapDelete {α : Type} (m : List (Nat × α)) (k : Nat) : List (Nat × α) :=
  m.filter (fun kv => ¬ kv.1 == k)

/-- The storage state of memorystorage.go's `memoryStorage`: the unique-id
counter, the `msg_id → position` index, the QoS-2 side map, and the heap
array `priorityQueue`.  Mutexes guard concurrency only and are dropped. -/
structure memoryStorage where
  uniqueID : Int
  index : List (Nat × Nat)
  packets : List (Nat × List Nat)
  priorityQueue : List Packet
deriving Repr, DecidableEq

/-- `newMemoryStorage`: empty maps, empty queue. -/
def newMemoryStorage : memoryStorage :=
  { uniqueID := 0, index := [], packets := [], priorityQueue := [] }

/-- `memoryStorage.Len`. -/
def memoryStorage.Len (ms : memoryStorage) : Nat :=
  ms.priorityQueue.length

/-- The comparison of `memoryStorage.Less` applied to two packets:
confirmed sorts before unconfirmed; on equal confirm flags smaller
timestamp first; ties on timestamp break by smaller `MsgID`. -/
def lessPacket (item1 item2 : Packet) : Bool :=
  if item1.Confirm && !item2.Confirm then true
  else if !item1.Confirm && item2.Confirm then false
  else if item1.Timestamp == item2.Timestamp then decide (item1.MsgID < item2.MsgID)
  else decide (item1.Timestamp < item2.Timestamp)

/-- `memoryStorage.Less` (the current, lowercase storage): compares the
queue elements at positions `i` and `j`. -/
def memoryStorage.Less (ms : memoryStorage) (i j : Nat) : Bool :=
  lessPacket (ms.priorityQueue.getD i defaultPacket) (ms.priorityQueue.getD j defaultPacket)

/-- The comparison of the legacy `MemoryStorage.Less` (capitalised storage)
applied to two packets: confirmed first, then larger timestamp first, ties
by larger `MsgID`. -/
def MemoryStorageLess (item1 item2 : Packet) : Bool :=
  if item1.Confirm && !item2.Confirm then true
  else if !item1.Confirm && item2.Confirm then false
  else if item1.Timestamp == item2.Timestamp then decide (item1.MsgID > item2.MsgID)
  else decide (item1.Timestamp > item2.Timestamp)

/-- `memoryStorage.Swap`: bounds-checked element swap that also records the
new positions of both moved packets in the index map. -/
def memoryStorage.Swap (ms : memoryStorage) (i j : Nat) : memoryStorage :=
  let n := ms.priorityQueue.length
  if i < n && j < n then
    let pi := ms.priorityQueue.getD i defaultPacket
    let pj := ms.priorityQueue.getD j defaultPacket
    let pq := (ms.priorityQueue.set i pj).set j pi
    let idx1 := mapSet ms.index (pq.getD i defaultPacket).MsgID i
    let idx2 := mapSet idx1 (pq.getD j defaultPacket).MsgID j
    { ms with priorityQueue := pq, index := idx2 }
  else ms

/-- `memoryStorage.Push` (the `heap.Interface` method): append the packet
and record its position in the index. -/
def memoryStorage.Push (ms : memoryStorage) (packet : Packet) : memoryStorage :=
  { ms with priorityQueue := ms.priorityQueue ++ [packet],
            index := mapSet ms.index packet.MsgID ms.priorityQueue.length }

/-- `memoryStorage.Pop` (the `heap.Interface` method): remove and return
the last element; `none` on an empty queue. -/
def memoryStorage.Pop (ms : memoryStorage) : Option Packet × memoryStorage :=
  if ms.priorityQueue.isEmpty then (none, ms)
  else (ms.priorityQueue.getLast?, { ms with priorityQueue := ms.priorityQueue.dropLast })

/-- The body of `container/heap.up`, iterated under a structural fuel.
Each pass moves `j` to its parent `(j-1)/2 < j`, so `j` strictly
decreases and bounds the number of passes; `heapUp` supplies exactly that
bound, making the fuel-exhausted arm unreachable (see `heapUpFuel_irrel`). -/
def heapUpFuel : Nat → memoryStorage → Nat → memoryStorage
  | 0, ms, _ => ms
  | fuel + 1, ms, j =>
    if (j - 1) / 2 == j || !(ms.Less j ((j - 1) / 2)) then ms
    else heapUpFuel fuel (ms.Swap j ((j - 1) / 2)) ((j - 1) / 2)

/-- `container/heap.up`: sift the element at position `j` towards the root
while it sorts before its parent. -/
def heapUp (ms : memoryStorage) (j : Nat) : memoryStorage :=
  heapUpFuel j ms j

/-- Any fuel at least `j` computes the same result: the fuel is a bound
on the loop's variant, not part of its semantics. -/
theorem heapUpFuel_irrel (f : Nat) : ∀ (g : Nat) (ms : memoryStorage) (j : Nat),
    j ≤ f → j ≤ g → heapUpFuel f ms j = heapUpFuel g ms j := by
  induction f with
  | zero =>
    intro g ms j hf hg
    have hj : j = 0 := by omega
    subst hj
    cases g with
    | zero => rfl
    | succ g => simp [heapUpFuel]
  | succ f ih =>
    intro g ms j hf hg
    cases g with
    | zero =>
      have hj : j = 0 := by omega
      subst hj
      simp [heapUpFuel]
    | succ g =>
      simp only [heapUpFuel]
      by_cases h1 : ((j - 1) / 2 == j || !(ms.Less j ((j - 1) / 2))) = true
      · rw [if_pos h1, if_pos h1]
      · rw [if_neg h1, if_neg h1]
        have hj : j ≠ 0 := by
          intro hz
          subst hz
          simp at h1
        exact ih g (ms.Swap j ((j - 1) / 2)) ((j - 1) / 2) (by omega) (by omega)

/-- The child position chosen by `container/heap.down` at position `i`:
the left child `2*i+1`, or the right child when it exists and sorts
before the left one. -/
def heapDownIdx (ms : memoryStorage) (i n : Nat) : Nat :=
  if 2 * i + 1 + 1 < n && ms.Less (2 * i + 1 + 1) (2 * i + 1) then 2 * i + 1 + 1
  else 2 * i + 1

/-- The body of `container/heap.down`, iterated under a structural fuel.
Each pass moves `i` to a child below `n`, so `n - i` strictly decreases
and bounds the number of passes; `heapDownLoop` supplies exactly that
bound, making the fuel-exhausted arm unreachable (see
`heapDownLoopFuel_irrel`). -/
def heapDownLoopFuel : Nat → memoryStorage → Nat → Nat → memoryStorage × Nat
  | 0, ms, i, _ => (ms, i)
  | fuel + 1, ms, i, n =>
    if 2 * i + 1 ≥ n then (ms, i)
    else if !(ms.Less (heapDownIdx ms i n) i) then (ms, i)
    else heapDownLoopFuel fuel (ms.Swap i (heapDownIdx ms i n)) (heapDownIdx ms i n) n

/-- `container/heap.down` as a loop on the current position `i`: sift the
element down within the first `n` positions, returning the state and the
final position. -/
def heapDownLoop (ms : memoryStorage) (i n : Nat) : memoryStorage × Nat :=
  heapDownLoopFuel (n - i) ms i n

/-- The chosen child lies strictly between `i` and `n` while the left
child is in range. -/
theorem heapDownIdx_bounds (ms : memoryStorage) (i n : Nat) (h : ¬ 2 * i + 1 ≥ n) :
    i < heapDownIdx ms i n ∧ heapDownIdx ms i n < n := by
  unfold heapDownIdx
  split
  · next hc =>
    have h1 : 2 * i + 1 + 1 < n := of_decide_eq_true (Bool.and_eq_true _ _ ▸ hc).1
    omega
  · omega

/-- Any fuel at least `n - i` computes the same result: the fuel is a
bound on the loop's variant, not part of its semantics. -/
theorem heapDownLoopFuel_irrel (f : Nat) : ∀ (g : Nat) (ms : memoryStorage) (i n : Nat),
    n - i ≤ f → n - i ≤ g → heapDownLoopFuel f ms i n = heapDownLoopFuel g ms i n := by
  induction f with
  | zero =>
    intro g ms i n hf hg
    cases g with
    | zero => rfl
    | succ g =>
      simp only [heapDownLoopFuel]
      rw [if_pos (by omega)]
  | succ f ih =>
    intro g ms i n hf hg
    cases g with
    | zero =>
      simp only [heapDownLoopFuel]
      rw [if_pos (by omega)]
    | succ g =>
      simp only [heapDownLoopFuel]
      by_cases h1 : 2 * i + 1 ≥ n
      · rw [if_pos h1, if_pos h1]
      · rw [if_neg h1, if_neg h1]
        by_cases h2 : (!(ms.Less (heapDownIdx ms i n) i)) = true
        · rw [if_pos h2, if_pos h2]
        · rw [if_neg h2, if_neg h2]
          have hb := heapDownIdx_bounds ms i n h1
          exact ih g (ms.Swap i (heapDownIdx ms i n)) (heapDownIdx ms i n) n
            (by omega) (by omega)

/-- `container/heap.down`: the boolean result reports whether the element
moved (`i > i0`). -/
def heapDown (ms : memoryStorage) (i0 n : Nat) : memoryStorage × Bool :=
  let r := heapDownLoop ms i0 n
  (r.1, decide (r.2 > i0))

/-- `container/heap.Push`: append via the interface `Push`, then sift the
new last element up. -/
def heapPush (ms : memoryStorage) (packet : Packet) : memoryStorage :=
  let ms1 := ms.Push packet
  heapUp ms1 (ms1.priorityQueue.length - 1)

/-- `container/heap.Pop`: swap the root with the last element, sift the
root down over the first `n` positions, then remove the last element.  On
an empty queue the bounds-checked `Swap`, `down` and `Pop` all degenerate
and `none` is returned with the state unchanged. -/
def heapPop (ms : memoryStorage) : Option Packet × memoryStorage :=
  if ms.priorityQueue.isEmpty then (none, ms)
  else
    let n := ms.priorityQueue.length - 1
    let ms1 := ms.Swap 0 n
    let ms2 := (heapDown ms1 0 n).1
    ms2.Pop

/-- `container/heap.Fix`: restore the heap property at position `i` after
its key changed, sifting down and, when nothing moved, up. -/
def heapFix (ms : memoryStorage) (i : Nat) : memoryStorage :=
  let r := heapDown ms i ms.priorityQueue.length
  if r.2 then r.1 else heapUp r.1 i

/-- `memoryStorage.Save`: `heap.Push` under the queue mutex. -/
def memoryStorage.Save (ms : memoryStorage) (packet : Packet) : memoryStorage :=
  heapPush ms packet

/-- `Swap` never changes the number of queued packets. -/
theorem Swap_length (ms : memoryStorage) (i j : Nat) :
    (ms.Swap i j).priorityQueue.length = ms.priorityQueue.length := by
  simp only [memoryStorage.Swap]
  split <;> simp

/-- The `down` loop only swaps elements, so the queue length is stable. -/
theorem heapDownLoopFuel_fst_length (f : Nat) : ∀ (ms : memoryStorage) (i n : Nat),
    (heapDownLoopFuel f ms i n).1.priorityQueue.length = ms.priorityQueue.length := by
  induction f with
  | zero =>
    intro ms i n
    rfl
  | succ f ih =>
    intro ms i n
    simp only [heapDownLoopFuel]
    by_cases h1 : 2 * i + 1 ≥ n
    · rw [if_pos h1]
    · rw [if_neg h1]
      by_cases h2 : (!(ms.Less (heapDownIdx ms i n) i)) = true
      · rw [if_pos h2]
      · rw [if_neg h2, ih, Swap_length]

/-- The queue length is stable across `heapDownLoop`. -/
theorem heapDownLoop_fst_length (ms : memoryStorage) (i n : Nat) :
    (heapDownLoop ms i n).1.priorityQueue.length = ms.priorityQueue.length :=
  heapDownLoopFuel_fst_length (n - i) ms i n

/-- When `heap.Pop` yields a packet, the queue shrank by exactly one. -/
theorem heapPop_some_length (ms : memoryStorage) (p : Packet) (ms1 : memoryStorage)
    (h : heapPop ms = (some p, ms1)) :
    ms1.priorityQueue.length + 1 = ms.priorityQueue.length := by
  unfold heapPop at h
  by_cases he : ms.priorityQueue.isEmpty
  · rw [if_pos he] at h
    rw [Prod.mk.injEq] at h
    exact absurd h.1 (by simp)
  · rw [if_neg he] at h
    simp only [heapDown, memoryStorage.Pop] at h
    have h1 := heapDownLoop_fst_length (ms.Swap 0 (ms.priorityQueue.length - 1)) 0
      (ms.priorityQueue.length - 1)
    rw [Swap_length] at h1
    have hne : ¬ (heapDownLoop (ms.Swap 0 (ms.priorityQueue.length - 1)) 0
        (ms.priorityQueue.length - 1)).1.priorityQueue.isEmpty = true := by
      rw [List.isEmpty_iff_length_eq_zero, h1]
      simp only [List.isEmpty_iff_length_eq_zero] at he
      omega
    rw [if_neg hne] at h
    rw [Prod.mk.injEq] at h
    obtain ⟨h3, h4⟩ := h
    rw [← h4]
    simp only [List.length_dropLast, h1]
    simp only [List.isEmpty_iff_length_eq_zero] at he
    omega

/-- The body of `memoryStorage.Unconfirmed`'s loop under a structural
fuel: `heap.Pop`; on a popped packet delete its index entry; skip it when
confirmed; when it is not yet due (`Timestamp > now`) push it back and
return `none`; otherwise return it.  An empty queue returns `none`.  Each
looping pass removes one packet, so the queue length bounds the number of
passes; `Unconfirmed` supplies one more than that bound, making the
fuel-exhausted arm unreachable (see `UnconfirmedFuel_irrel`). -/
def UnconfirmedFuel : Nat → memoryStorage → Int → Option Packet × memoryStorage
  | 0, ms, _ => (none, ms)
  | fuel + 1, ms, now =>
    match heapPop ms with
    | (none, ms1) => (none, ms1)
    | (some packet, ms1) =>
      let ms2 := { ms1 with index := mapDelete ms1.index packet.MsgID }
      if packet.Confirm then UnconfirmedFuel fuel ms2 now
      else if packet.Timestamp > now then (none, heapPush ms2 packet)
      else (some packet, ms2)

/-- `memoryStorage.Unconfirmed`: the pop-skip-reinsert loop run with
sufficient fuel. -/
def memoryStorage.Unconfirmed (ms : memoryStorage) (now : Int) : Option Packet × memoryStorage :=
  UnconfirmedFuel (ms.priorityQueue.length + 1) ms now

/-- Any fuel exceeding the queue length computes the same result: the
fuel is a bound on the loop's variant, not part of its semantics. -/
theorem UnconfirmedFuel_irrel (f : Nat) : ∀ (g : Nat) (ms : memoryStorage) (now : Int),
    ms.priorityQueue.length < f → ms.priorityQueue.length < g →
    UnconfirmedFuel f ms now = UnconfirmedFuel g ms now := by
  induction f with
  | zero =>
    intro g ms now hf hg
    omega
  | succ f ih =>
    intro g ms now hf hg
    cases g with
    | zero => omega
    | succ g =>
      simp only [UnconfirmedFuel]
      rcases hp : heapPop ms with ⟨op, ms1⟩
      cases op with
      | none => rfl
      | some packet =>
        by_cases hc : packet.Confirm
        · simp only [hc, if_true]
          have hlen := heapPop_some_length ms packet ms1 hp
          have hms2 : ({ ms1 with index := mapDelete ms1.index packet.MsgID } :
              memoryStorage).priorityQueue.length = ms1.priorityQueue.length := rfl
          exact ih g _ now (by omega) (by omega)
        · simp only [if_neg hc]

/-- `memoryStorage.Confirm`: look the id up in the index; when present,
set the packet's `Confirm` flag in place and `heap.Fix` its position,
returning the packet; `none` when the id is unknown. -/
def memoryStorage.Confirm (ms : memoryStorage) (id : Nat) : Option Packet × memoryStorage :=
  match mapGet ms.index id with
  | some idx =>
    let packet := ms.priorityQueue.getD idx defaultPacket
    let packet1 := { packet with Confirm := true }
    let ms1 := { ms with priorityQueue := ms.priorityQueue.set idx packet1 }
    (some packet1, heapFix ms1 idx)
  | none => (none, ms)

/-- `memoryStorage.Receive`: store a QoS-2 inbound payload in the side map. -/
def memoryStorage.Receive (ms : memoryStorage) (id : Nat) (payload : List Nat) : memoryStorage :=
  { ms with packets := mapSet ms.packets id payload }

/-- `memoryStorage.Release`: read the side-map entry (Go's map read gives
nil, i.e. `none`, when absent), delete it, and return the payload. -/
def memoryStorage.Release (ms : memoryStorage) (id : Nat) : Option (List Nat) × memoryStorage :=
  (mapGet ms.packets id, { ms with packets := mapDelete ms.packets id })

/-- Message type `SEND`. -/
def MsgTypeSend : Nat := 0x1

/-- Message type `ACK`. -/
def MsgTypeAck : Nat := 0x2

/-- Message type `RECEIVED`. -/
def MsgTypeReceived : Nat := 0x3

/-- Message type `RELEASE`. -/
def MsgTypeRelease : Nat := 0x4

/-- Message type `COMPLETED`. -/
def MsgTypeCompleted : Nat := 0x5

/-- Quality of service level 0 (at most once). -/
def Qos0 : Nat := 0

/-- Quality of service level 1 (at least once). -/
def Qos1 : Nat := 1

/-- Quality of service level 2 (only once). -/
def Qos2 : Nat := 2

/-- `GoPack.handle` from memorystorage.go: dispatch one inbound packet
against the storage.  User-callback invocations are returned as the list
of delivered payloads, in invocation order.  A nil reply payload is the
empty list. -/
def handle (ms : memoryStorage) (packet : Packet) : memoryStorage × List (List Nat) :=
  if packet.MsgType == MsgTypeSend then
    if packet.Qos == Qos0 then (ms, [packet.Payload])
    else if packet.Qos == Qos1 then
      let reply := Encode MsgTypeAck Qos0 0 packet.MsgID []
      (ms.Save reply, [packet.Payload])
    else if packet.Qos == Qos2 then
      let ms1 := ms.Receive packet.MsgID packet.Payload
      let reply := Encode MsgTypeReceived Qos0 0 packet.MsgID []
      (ms1.Save reply, [])
    else (ms, [])
  else if packet.MsgType == MsgTypeAck then ((ms.Confirm packet.MsgID).2, [])
  else if packet.MsgType == MsgTypeReceived then
    let ms1 := (ms.Confirm packet.MsgID).2
    let reply := Encode MsgTypeRelease Qos1 0 packet.MsgID []
    (ms1.Save reply, [])
  else if packet.MsgType == MsgTypeRelease then
    let r := ms.Release packet.MsgID
    let cbs := match r.1 with
      | some payload => [payload]
      | none => []
    let reply := Encode MsgTypeCompleted Qos0 0 packet.MsgID []
    (r.2.Save reply, cbs)
  else if packet.MsgType == MsgTypeCompleted then ((ms.Confirm packet.MsgID).2, [])
  else (ms, [])

/-- `GoPack.retry` from memorystorage.go, with the wall clock passed in as
`now` (seconds): QoS 0 packets are not rescheduled; an already-retried
packet is shallow-cloned with `RetryTimes` incremented; a first retry is a
re-encode of the same message with `dup = 1` and `RetryTimes = 1`; either
way the clone becomes due `5 * RetryTimes` seconds from `now`. -/
def retry (packet : Packet) (now : Int) : Option Packet :=
  if packet.Qos == Qos0 then none
  else if packet.RetryTimes > 0 then
    let retryPacket := packet.Clone
    let retryPacket1 := { retryPacket with RetryTimes := retryPacket.RetryTimes + 1 }
    some { retryPacket1 with Timestamp := now + 5 * retryPacket1.RetryTimes }
  else
    let retryPacket := Encode packet.MsgType packet.Qos 1 packet.MsgID packet.Payload
    let retryPacket1 := { retryPacket with RetryTimes := 1 }
    some { retryPacket1 with Timestamp := now + 5 * retryPacket1.RetryTimes }

/-- One non-idle iteration of `GoPack.write`: take the next due packet via
`Unconfirmed`; when there is none, write nothing; otherwise save the retry
clone (when `retry` produces one) and then transmit the packet's framed
buffer.  The transmitted bytes are the second component. -/
def writeStep (ms : memoryStorage) (now : Int) : memoryStorage × Option (List Nat) :=
  match ms.Unconfirmed now with
  | (none, ms1) => (ms1, none)
  | (some packet, ms1) =>
    match retry packet now with
    | some retryPacket => (ms1.Save retryPacket, some packet.Buffer)
    | none => (ms1, some packet.Buffer)

/-- `ErrMissingParams` from memorystorage.go. -/
def ErrMissingParams : String := "missing parameters"

/-- `Options` from memorystorage.go.  The callback is present or nil; the
storage option is the optional initial in-memory storage state. -/
structure Options where
  Address : String
  Callback : Option (List Nat → Option String → Unit)
  MaxPacketNumber : Int
  Storage : Option memoryStorage
  Heartbeat : Int

/-- `GoPack` holds its resolved options. -/
structure GoPack where
  opts : Options

/-- `NewGoPack` from memorystorage.go: nil options or a nil callback yield
`ErrMissingParams`; otherwise zero `MaxPacketNumber` and `Heartbeat`
default to 20 and 1000, a nil storage defaults to a fresh in-memory
storage, and the client is returned. -/
def NewGoPack (opts : Option Options) : Except String GoPack :=
  match opts with
  | none => .error ErrMissingParams
  | some o =>
    if o.Callback.isNone then .error ErrMissingParams
    else
      let o1 := if o.MaxPacketNumber == 0 then { o with MaxPacketNumber := 20 } else o
      let o2 := if o1.Heartbeat == 0 then { o1 with Heartbeat := 1000 } else o1
      let o3 := if o2.Storage.isNone then { o2 with Storage := some newMemoryStorage } else o2
      .ok { opts := o3 }

/-- Deleting a key that a map does not hold leaves the map unchanged. -/
theorem mapDelete_of_absent {α : Type} (m : List (Nat × α)) (k : Nat)
    (h : mapGet m k = none) : mapDelete m k = m := by
  unfold mapGet at h
  unfold mapDelete
  rw [List.filter_eq_self]
  intro a ha
  rw [Option.map_eq_none'] at h
  rw [List.find?_eq_none] at h
  simpa using h a ha

/-- After a delete, the key reads as absent. -/
theorem mapGet_mapDelete {α : Type} (m : List (Nat × α)) (k : Nat) :
    mapGet (mapDelete m k) k = none := by
  unfold mapGet mapDelete
  rw [Option.map_eq_none']
  rw [List.find?_eq_none]
  intro a ha
  rw [List.mem_filter] at ha
  simpa using ha.2

/-- Reading back a big-endian encoded 16-bit value returns the value and
leaves the rest of the stream. -/
theorem decodeUint16_encodeUint16 (n : Nat) (rest : List Nat) (h : n < 65536) :
    decodeUint16 (encodeUint16 n ++ rest) = some (n, rest) := by
  simp only [encodeUint16, decodeUint16, List.cons_append, List.nil_append]
  have h2 : n / 256 % 256 * 256 + n % 256 = n := by omega
  rw [h2]

/-- On the header's domain, the fixed-header byte is the sum of its three
bit fields. -/
theorem fixedHeader_eval : ∀ mt < 16, ∀ q < 4, ∀ d < 2,
    ((mt <<< 4) % 256) ||| ((q <<< 2) % 256) ||| ((d <<< 1) % 256) =
      mt * 16 + q * 4 + d * 2 := by
  decide

/-- Decoding the fixed-header byte recovers the three bit fields. -/
theorem fixedHeader_decode : ∀ mt < 16, ∀ q < 4, ∀ d < 2,
    (mt * 16 + q * 4 + d * 2) >>> 4 = mt ∧
    ((mt * 16 + q * 4 + d * 2) &&& 0xf) >>> 2 = q ∧
    ((mt * 16 + q * 4 + d * 2) &&& 0x3) >>> 1 = d := by
  decide

/-- The four queued packets of the spec's priority-ordering scenario,
`(confirm, timestamp, msg_id)` = (F,10,2), (F,5,3), (T,1,1), (F,5,2). -/
def scenarioPackets : List Packet :=
  [ { defaultPacket with Confirm := false, Timestamp := 10, MsgID := 2 },
    { defaultPacket with Confirm := false, Timestamp := 5, MsgID := 3 },
    { defaultPacket with Confirm := true, Timestamp := 1, MsgID := 1 },
    { defaultPacket with Confirm := false, Timestamp := 5, MsgID := 2 } ]

/-- The scenario's storage: the four packets saved in the listed order. -/
def scenarioStorage : memoryStorage :=
  scenarioPackets.foldl memoryStorage.Save newMemoryStorage

/-- C1 fails as stated: the claim has packets with `confirm = false`
sorting before packets with `confirm = true`, but on an unconfirmed packet
`a` (msg_id 1) and a confirmed packet `b` (msg_id 2, equal timestamps) the
storage comparator sorts `b` before `a`, not `a` before `b`. -/
theorem C1_cex :
    lessPacket { defaultPacket with Confirm := false, MsgID := 1 }
        { defaultPacket with Confirm := true, MsgID := 2 } = false ∧
    lessPacket { defaultPacket with Confirm := true, MsgID := 2 }
        { defaultPacket with Confirm := false, MsgID := 1 } = true := by
  decide

/-- C1 (amended): the storage's `Less` comparator realises the min-heap
order keyed lexicographically by (confirm, timestamp, msg_id) in which a
packet with `confirm = true` sorts before one with `confirm = false`;
among two packets with the same confirm flag the one with the earlier
timestamp sorts first; and on equal timestamps the one with the smaller
msg_id sorts first. -/
theorem C1_less_order (a b : Packet) (ms : memoryStorage) (i j : Nat) :
    (ms.Less i j = lessPacket (ms.priorityQueue.getD i defaultPacket)
      (ms.priorityQueue.getD j defaultPacket)) ∧
    (lessPacket a b = true ↔
      ((a.Confirm = true ∧ b.Confirm = false) ∨
        (a.Confirm = b.Confirm ∧
          (a.Timestamp < b.Timestamp ∨
            (a.Timestamp = b.Timestamp ∧ a.MsgID < b.MsgID))))) := by
  refine ⟨rfl, ?_⟩
  unfold lessPacket
  by_cases hts : a.Timestamp = b.Timestamp <;>
    cases ha : a.Confirm <;> cases hb : b.Confirm <;>
      simp [hts, ha, hb] <;> omega

/-- C8 fails as stated: at now = 6 the first `Unconfirmed` call does
return the (msg_id 2, timestamp 5) packet, but the immediately following
call does not return none — the (msg_id 3, timestamp 5) packet is also
due and is returned. -/
theorem C8_cex :
    (scenarioStorage.Unconfirmed 6).1.map (fun p => (p.MsgID, p.Timestamp)) = some (2, 5) ∧
    ((scenarioStorage.Unconfirmed 6).2.Unconfirmed 6).1.map
      (fun p => (p.MsgID, p.Timestamp)) = some (3, 5) := by
  decide

/-- C8 (amended): with the queue holding (F,10,2), (F,5,3), (T,1,1),
(F,5,2), at now = 6 the first `Unconfirmed` call returns the (msg_id 2,
timestamp 5) packet, the second returns the (msg_id 3, timestamp 5)
packet, and only the third returns none (the timestamp-10 packet is not
due; the confirmed packet was discarded lazily). -/
theorem C8_schedule :
    (scenarioStorage.Unconfirmed 6).1.map (fun p => (p.MsgID, p.Timestamp)) = some (2, 5) ∧
    ((scenarioStorage.Unconfirmed 6).2.Unconfirmed 6).1.map
      (fun p => (p.MsgID, p.Timestamp)) = some (3, 5) ∧
    (((scenarioStorage.Unconfirmed 6).2.Unconfirmed 6).2.Unconfirmed 6).1 = none := by
  decide

/-- Every packet a run of the Unconfirmed loop body returns is unconfirmed
and already due, whatever the fuel. -/
theorem UnconfirmedFuel_sound (f : Nat) : ∀ (ms : memoryStorage) (now : Int)
    (p : Packet) (ms2 : memoryStorage), UnconfirmedFuel f ms now = (some p, ms2) →
    p.Confirm = false ∧ p.Timestamp ≤ now := by
  induction f with
  | zero =>
    intro ms now p ms2 h
    simp only [UnconfirmedFuel] at h
    exact absurd (congrArg Prod.fst h) (by simp)
  | succ f ih =>
    intro ms now p ms2 h
    simp only [UnconfirmedFuel] at h
    rcases hp : heapPop ms with ⟨op, ms1⟩
    rw [hp] at h
    cases op with
    | none => exact absurd (congrArg Prod.fst h) (by simp)
    | some q =>
      by_cases hc : q.Confirm
      · simp only [hc, if_true] at h
        exact ih _ now p ms2 h
      · by_cases ht : q.Timestamp > now
        · simp only [hc, ht, if_neg, if_pos, Bool.false_eq_true, if_false] at h
          exact absurd (congrArg Prod.fst h) (by simp)
        · simp only [hc, ht, Bool.false_eq_true, if_false] at h
          have hq : q = p := by
            have h1 := congrArg Prod.fst h
            simpa using h1
          subst hq
          constructor
          · simpa using hc
          · omega


/-- C2 (confirmed): `Unconfirmed` repeatedly pops the heap top, deleting
the popped packet's index entry; a confirmed packet is dropped and the
loop continues; a packet with timestamp > now is pushed back and none is
returned; otherwise the packet is returned.  Consequently a packet with
`Confirm = true` or with `Timestamp > now` is never returned. -/
theorem C2_unconfirmed_sound (ms : memoryStorage) (now : Int) (p : Packet)
    (h : (ms.Unconfirmed now).1 = some p) :
    p.Confirm = false ∧ p.Timestamp ≤ now := by
  have hpair : ms.Unconfirmed now = (some p, (ms.Unconfirmed now).2) := by
    rw [← h]
  exact UnconfirmedFuel_sound (ms.priorityQueue.length + 1) ms now p
    (ms.Unconfirmed now).2 hpair

/-- A single unconfirmed packet, already due at time 5. -/
def duePacket : Packet := { defaultPacket with MsgID := 7, Timestamp := 3 }

/-- A storage holding only `duePacket`. -/
def dueStorage : memoryStorage := newMemoryStorage.Save duePacket

/-- C2 witness: on a storage holding one due packet, `Unconfirmed` returns
it, and by `C2_unconfirmed_sound` it is unconfirmed and due. -/
theorem C2_witness :
    (dueStorage.Unconfirmed 5).1 = some duePacket ∧
    duePacket.Confirm = false ∧ duePacket.Timestamp ≤ 5 :=
  ⟨by decide, C2_unconfirmed_sound dueStorage 5 duePacket (by decide)⟩

/-- C4 (confirmed): `Decode` fails on every buffer of fewer than 5 bytes,
and on every buffer whose remaining-length field (bytes 3 and 4,
big-endian) exceeds the number of payload bytes that follow the 5-byte
header; in those cases no packet is returned. -/
theorem C4_decode_short (buf : List Nat) :
    (buf.length < 5 → Decode buf = none) ∧
    (5 ≤ buf.length → buf.length < 5 + (buf.getD 3 0 * 256 + buf.getD 4 0) →
      Decode buf = none) := by
  rcases buf with _ | ⟨b0, _ | ⟨b1, _ | ⟨b2, _ | ⟨b3, _ | ⟨b4, rest⟩⟩⟩⟩⟩
  · exact ⟨fun _ => rfl, fun h1 _ => absurd h1 (by simp)⟩
  · exact ⟨fun _ => rfl, fun h1 _ => absurd h1 (by simp)⟩
  · exact ⟨fun _ => rfl, fun h1 _ => absurd h1 (by simp)⟩
  · exact ⟨fun _ => rfl, fun h1 _ => absurd h1 (by simp)⟩
  · exact ⟨fun _ => rfl, fun h1 _ => absurd h1 (by simp)⟩
  · constructor
    · intro h1
      simp only [List.length_cons] at h1
      omega
    · intro h1 h2
      simp only [List.getD_cons_succ, List.getD_cons_zero, List.length_cons] at h2
      simp only [Decode, decodeUint16]
      rw [if_pos (by omega)]

/-- C4 witness: a 3-byte buffer fails, and a buffer announcing 5 payload
bytes but carrying only 2 fails. -/
theorem C4_witness :
    Decode [0, 0, 0] = none ∧ Decode [16, 0, 1, 0, 5, 1, 2] = none :=
  ⟨(C4_decode_short [0, 0, 0]).1 (by decide),
   (C4_decode_short [16, 0, 1, 0, 5, 1, 2]).2 (by decide) (by decide)⟩

/-- C9 (confirmed): on a buffer strictly longer than 5 plus its
remaining-length field, `Decode` succeeds; the payload is exactly the
`remaining_length` bytes after the header, every decoded field comes from
the header alone, and the packet's `Buffer` is the entire input including
the trailing bytes. -/
theorem C9_decode_trailing (buf : List Nat)
    (hlen : 5 + (buf.getD 3 0 * 256 + buf.getD 4 0) < buf.length) :
    ∃ p : Packet, Decode buf = some p ∧
      p.Payload = (buf.drop 5).take (buf.getD 3 0 * 256 + buf.getD 4 0) ∧
      p.Buffer = buf ∧
      p.RemainingLength = buf.getD 3 0 * 256 + buf.getD 4 0 ∧
      p.MsgType = buf.getD 0 0 >>> 4 ∧
      p.Qos = (buf.getD 0 0 &&& 0xf) >>> 2 ∧
      p.Dup = byteToBool ((buf.getD 0 0 &&& 0x3) >>> 1) ∧
      p.MsgID = buf.getD 1 0 * 256 + buf.getD 2 0 := by
  rcases buf with _ | ⟨b0, _ | ⟨b1, _ | ⟨b2, _ | ⟨b3, _ | ⟨b4, rest⟩⟩⟩⟩⟩
  · exact absurd hlen (by simp <;> omega)
  · exact absurd hlen (by simp <;> omega)
  · exact absurd hlen (by simp <;> omega)
  · exact absurd hlen (by simp <;> omega)
  · exact absurd hlen (by simp <;> omega)
  · simp only [List.getD_cons_succ, List.getD_cons_zero, List.length_cons] at hlen
    simp only [Decode, decodeUint16, List.getD_cons_succ, List.getD_cons_zero]
    rw [if_neg (by omega)]
    exact ⟨_, rfl, by simp, rfl, rfl, rfl, rfl, rfl, rfl⟩

/-- C9 witness: a 7-byte buffer with remaining_length 1 decodes, its
payload is the single byte after the header, and its buffer keeps the
trailing byte. -/
theorem C9_witness :
    5 + ([16, 0, 1, 0, 1, 9, 8].getD 3 0 * 256 + [16, 0, 1, 0, 1, 9, 8].getD 4 0) <
      [16, 0, 1, 0, 1, 9, 8].length ∧
    ∃ p : Packet, Decode [16, 0, 1, 0, 1, 9, 8] = some p ∧
      p.Payload = [9] ∧ p.Buffer = [16, 0, 1, 0, 1, 9, 8] := by
  refine ⟨by decide, ?_⟩
  obtain ⟨p, h1, h2, h3, _⟩ := C9_decode_trailing [16, 0, 1, 0, 1, 9, 8] (by decide)
  refine ⟨p, h1, ?_, h3⟩
  rw [h2]
  decide

/-- C3 fails as stated: the claim quantifies over every payload, but for a
payload of 65536 bytes the 16-bit remaining_length wraps to 0 and decoding
the encoded frame yields an empty payload, not the original one. -/
theorem C3_cex :
    (Decode (Encode 1 0 0 0 (List.replicate 65536 0)).Buffer).map Packet.Payload =
      some [] ∧
    List.replicate 65536 (0 : Nat) ≠ [] := by
  have key : ∀ (L : List Nat), L.length = 65536 →
      (Decode (Encode 1 0 0 0 L).Buffer).map Packet.Payload = some [] ∧ L ≠ [] := by
    intro L hlen
    constructor
    · have hmod : L.length % 65536 = 0 := by
        rw [hlen]
      have hfh : ((1 <<< 4) % 256) ||| ((0 <<< 2) % 256) ||| ((0 <<< 1) % 256) = 16 := by
        decide
      have hbuf : (Encode 1 0 0 0 L).Buffer =
          16 :: (encodeUint16 0 ++ (encodeUint16 0 ++ L)) := by
        simp only [Encode, hmod, hfh, List.append_assoc]
      rw [hbuf]
      simp only [Decode,
        decodeUint16_encodeUint16 0 (encodeUint16 0 ++ L) (by omega),
        decodeUint16_encodeUint16 0 L (by omega)]
      rw [if_neg (by omega)]
      simp
    · intro h
      rw [h] at hlen
      simp at hlen
  exact key _ (by rw [List.length_replicate])

/-- C3 (amended): for msg_type in 1..5, qos in 0..2, dup in 0..1, any
16-bit msg_id, and any payload of fewer than 65536 bytes (nil treated as
empty), decoding the encoded frame returns the same msg_type, qos, dup,
msg_id and payload, with timestamp, retry_times and confirm zero/false. -/
theorem C3_encode_decode (msgType qos dup msgID : Nat) (payload : List Nat)
    (h1 : 1 ≤ msgType) (h2 : msgType ≤ 5) (h3 : qos ≤ 2) (h4 : dup ≤ 1)
    (h5 : msgID < 65536) (h6 : payload.length < 65536) :
    ∃ p : Packet, Decode (Encode msgType qos dup msgID payload).Buffer = some p ∧
      p.MsgType = msgType ∧ p.Qos = qos ∧ p.Dup = byteToBool dup ∧
      p.MsgID = msgID ∧ p.Payload = payload ∧
      p.Timestamp = 0 ∧ p.RetryTimes = 0 ∧ p.Confirm = false := by
  have hrl : payload.length % 65536 = payload.length := Nat.mod_eq_of_lt h6
  have hfh := fixedHeader_eval msgType (by omega) qos (by omega) dup (by omega)
  have hbuf : (Encode msgType qos dup msgID payload).Buffer =
      (msgType * 16 + qos * 4 + dup * 2) ::
        (encodeUint16 msgID ++ (encodeUint16 (payload.length % 65536) ++ payload)) := by
    simp only [Encode, hfh, List.append_assoc]
  have hdec := fixedHeader_decode msgType (by omega) qos (by omega) dup (by omega)
  rw [hbuf]
  simp only [Decode,
    decodeUint16_encodeUint16 msgID (encodeUint16 (payload.length % 65536) ++ payload) h5,
    decodeUint16_encodeUint16 (payload.length % 65536) payload
      (Nat.mod_lt _ (by omega))]
  rw [if_neg (by omega)]
  refine ⟨_, rfl, hdec.1, hdec.2.1, ?_, rfl, ?_, rfl, rfl, rfl⟩
  · rw [hdec.2.2]
  · rw [hrl, List.take_length]

/-- C3 witness: a concrete SEND frame with qos 1, dup 1, msg_id 513 and a
3-byte payload round-trips through encode and decode. -/
theorem C3_witness :
    ∃ p : Packet, Decode (Encode 1 1 1 513 [7, 8, 9]).Buffer = some p ∧
      p.MsgType = 1 ∧ p.Qos = 1 ∧ p.Dup = byteToBool 1 ∧
      p.MsgID = 513 ∧ p.Payload = [7, 8, 9] ∧
      p.Timestamp = 0 ∧ p.RetryTimes = 0 ∧ p.Confirm = false :=
  C3_encode_decode 1 1 1 513 [7, 8, 9] (by decide) (by decide) (by decide)
    (by decide) (by decide) (by decide)

/-- C10 fails as stated: for a payload of 131067 bytes the remaining
length wraps to 65531 and the claim's total_length, 5 + 65531 = 65536,
does not fit the 16-bit field — the encoded packet's TotalLength is 0. -/
theorem C10_cex :
    (Encode 1 0 0 0 (List.replicate 131067 0)).TotalLength = 0 ∧
    (Encode 1 0 0 0 (List.replicate 131067 0)).TotalLength ≠
      5 + (List.replicate 131067 (0 : Nat)).length % 65536 := by
  have key : ∀ (L : List Nat), L.length = 131067 →
      (Encode 1 0 0 0 L).TotalLength = 0 ∧
      (Encode 1 0 0 0 L).TotalLength ≠ 5 + L.length % 65536 := by
    intro L hlen
    have h : (Encode 1 0 0 0 L).TotalLength = (5 + L.length % 65536) % 65536 := rfl
    constructor
    · rw [h, hlen]
    · rw [h, hlen]
      omega
  exact key _ (by rw [List.length_replicate])

/-- C10 (amended): encode does not guard the 16-bit length field: for
every payload longer than 65535 bytes it sets remaining_length to
len(payload) mod 65536 (and total_length to (5 + that value) mod 65536,
the sum wrapped to 16 bits) while still writing all len(payload) bytes
into the framed buffer, so the header's length field disagrees with the
number of bytes actually framed after the header. -/
theorem C10_encode_overflow (msgType qos dup msgID : Nat) (payload : List Nat)
    (h : payload.length > 65535) :
    (Encode msgType qos dup msgID payload).RemainingLength = payload.length % 65536 ∧
    (Encode msgType qos dup msgID payload).TotalLength =
      (5 + payload.length % 65536) % 65536 ∧
    (Encode msgType qos dup msgID payload).Buffer.length = 5 + payload.length ∧
    (Encode msgType qos dup msgID payload).RemainingLength ≠
      (Encode msgType qos dup msgID payload).Buffer.length - 5 := by
  have hb : (Encode msgType qos dup msgID payload).Buffer.length = 5 + payload.length := by
    simp only [Encode, List.length_cons, List.length_append, encodeUint16,
      List.length_cons, List.length_nil]
    omega
  refine ⟨rfl, rfl, hb, ?_⟩
  rw [hb]
  show payload.length % 65536 ≠ 5 + payload.length - 5
  omega

/-- C10 witness: a 65536-byte payload encodes with remaining_length 0
while the framed buffer still holds all 65541 bytes. -/
theorem C10_witness :
    (List.replicate 65536 (0 : Nat)).length > 65535 ∧
    (Encode 1 0 0 0 (List.replicate 65536 0)).RemainingLength = 0 ∧
    (Encode 1 0 0 0 (List.replicate 65536 0)).Buffer.length = 5 + 65536 := by
  have key : ∀ (L : List Nat), L.length = 65536 →
      L.length > 65535 ∧
      (Encode 1 0 0 0 L).RemainingLength = 0 ∧
      (Encode 1 0 0 0 L).Buffer.length = 5 + 65536 := by
    intro L hlen
    have h := C10_encode_overflow 1 0 0 0 L (by omega)
    refine ⟨by omega, ?_, ?_⟩
    · rw [h.1, hlen]
    · rw [h.2.2.1, hlen]
  exact key _ (by rw [List.length_replicate])

/-- C6 (confirmed): for a msg_id absent from the QoS-2 side map, handling
an inbound RELEASE with that id finds `Release` returning none, invokes no
user callback, and leaves the storage equal to the original with a fresh
COMPLETED reply for that id saved; and in general a release removes the
entry, so a payload is returned at most once. -/
theorem C6_duplicate_release (ms : memoryStorage) (p : Packet)
    (habsent : mapGet ms.packets p.MsgID = none)
    (htype : p.MsgType = MsgTypeRelease) :
    (ms.Release p.MsgID).1 = none ∧
    (handle ms p).2 = [] ∧
    (handle ms p).1 = ms.Save (Encode MsgTypeCompleted Qos0 0 p.MsgID []) ∧
    (∀ (ms2 : memoryStorage) (id : Nat),
      mapGet ((ms2.Release id).2).packets id = none ∧
      ((ms2.Release id).2.Release id).1 = none) := by
  have hrel : (ms.Release p.MsgID).1 = none := habsent
  have hdel : mapDelete ms.packets p.MsgID = ms.packets :=
    mapDelete_of_absent ms.packets p.MsgID habsent
  have hstate : ((ms.Release p.MsgID).2 : memoryStorage) = ms := by
    simp only [memoryStorage.Release, hdel]
  refine ⟨hrel, ?_, ?_, ?_⟩
  · simp [handle, htype, MsgTypeRelease, MsgTypeSend, MsgTypeAck, MsgTypeReceived,
      memoryStorage.Release, habsent]
  · simp only [handle, htype]
    rw [if_neg (by decide), if_neg (by decide), if_neg (by decide), if_pos (by decide)]
    rw [hstate]
  · intro ms2 id
    constructor
    · exact mapGet_mapDelete ms2.packets id
    · exact mapGet_mapDelete ms2.packets id

/-- A RELEASE packet for msg_id 9 (as decoded from the wire). -/
def releasePacket : Packet := { defaultPacket with MsgType := MsgTypeRelease, MsgID := 9 }

/-- C6 witness: with an empty side map, handling a RELEASE for id 9 fires
no callback and enqueues a COMPLETED reply for id 9. -/
theorem C6_witness :
    mapGet newMemoryStorage.packets releasePacket.MsgID = none ∧
    (newMemoryStorage.Release releasePacket.MsgID).1 = none ∧
    (handle newMemoryStorage releasePacket).2 = [] ∧
    (handle newMemoryStorage releasePacket).1 =
      newMemoryStorage.Save (Encode MsgTypeCompleted Qos0 0 releasePacket.MsgID []) := by
  have h := C6_duplicate_release newMemoryStorage releasePacket rfl rfl
  exact ⟨rfl, h.1, h.2.1, h.2.2.1⟩

/-- C5 (confirmed): when the writer's iteration obtains a due packet from
`Unconfirmed`, a QoS-0 packet is transmitted with nothing re-enqueued;
otherwise the retry clone — a shallow clone with `RetryTimes` incremented
when positive, else a re-encode of the same message with dup = 1 and
`RetryTimes` = 1 — is stamped due at now + 5 × its `RetryTimes` seconds
and saved to storage, and the original packet's framed buffer is written. -/
theorem C5_writer_retry (ms : memoryStorage) (now : Int) (p : Packet)
    (h : (ms.Unconfirmed now).1 = some p) :
    (p.Qos = 0 → retry p now = none ∧
      writeStep ms now = ((ms.Unconfirmed now).2, some p.Buffer)) ∧
    (p.Qos ≠ 0 → ∃ rp : Packet,
      retry p now = some rp ∧
      writeStep ms now = (((ms.Unconfirmed now).2).Save rp, some p.Buffer) ∧
      (p.RetryTimes > 0 →
        rp = { p with RetryTimes := p.RetryTimes + 1, Timestamp := now + 5 * (p.RetryTimes + 1) }) ∧
      (¬ p.RetryTimes > 0 →
        rp = { (Encode p.MsgType p.Qos 1 p.MsgID p.Payload) with RetryTimes := 1, Timestamp := now + 5 * 1 }) ∧
      rp.Timestamp = now + 5 * rp.RetryTimes) := by
  rcases hu : ms.Unconfirmed now with ⟨o, ms2⟩
  rw [hu] at h
  replace h : o = some p := h
  subst h
  constructor
  · intro hq
    have hr : retry p now = none := by
      simp [retry, hq, Qos0]
    refine ⟨hr, ?_⟩
    simp only [writeStep, hu, hr]
  · intro hq
    have hq2 : (p.Qos == Qos0) = false := by
      simpa [Qos0] using hq
    by_cases hrt : p.RetryTimes > 0
    · have hr :
          retry p now = some { p with RetryTimes := p.RetryTimes + 1, Timestamp := now + 5 * (p.RetryTimes + 1) } := by
        simp [retry, hq2, hrt, Packet.Clone]
      refine ⟨_, hr, ?_, fun _ => rfl, fun hn => absurd hrt hn, rfl⟩
      simp only [writeStep, hu, hr]
    · have hr :
          retry p now = some { (Encode p.MsgType p.Qos 1 p.MsgID p.Payload) with RetryTimes := 1, Timestamp := now + 5 * 1 } := by
        simp [retry, hq2, hrt]
      refine ⟨_, hr, ?_, fun hp2 => absurd hp2 hrt, fun _ => rfl, rfl⟩
      simp only [writeStep, hu, hr]

/-- A freshly committed QoS-1 SEND for msg_id 7, due immediately. -/
def dueQos1Packet : Packet := Encode MsgTypeSend Qos1 0 7 [1]

/-- A storage holding only `dueQos1Packet`. -/
def dueQos1Storage : memoryStorage := newMemoryStorage.Save dueQos1Packet

/-- C5 witness: the writer pulls the due QoS-1 packet at now = 100, saves
a retry clone due at 105 with retry_times 1, and transmits the original
buffer. -/
theorem C5_witness :
    (dueQos1Storage.Unconfirmed 100).1 = some dueQos1Packet ∧
    ∃ rp : Packet, retry dueQos1Packet 100 = some rp ∧
      writeStep dueQos1Storage 100 =
        (((dueQos1Storage.Unconfirmed 100).2).Save rp, some dueQos1Packet.Buffer) ∧
      rp.Timestamp = 100 + 5 * rp.RetryTimes := by
  have h := (C5_writer_retry dueQos1Storage 100 dueQos1Packet (by decide)).2 (by decide)
  obtain ⟨rp, h1, h2, h3, h4, h5⟩ := h
  exact ⟨by decide, rp, h1, h2, h5⟩

/-- C7 fails as stated: options with a callback but an empty (missing)
address are accepted — `NewGoPack` succeeds where the claim requires the
MissingParams error. -/
theorem C7_cex :
    (NewGoPack (some
      { Address := "", Callback := some (fun _ _ => ()), MaxPacketNumber := 0,
        Storage := none, Heartbeat := 0 })).toOption.isSome = true := rfl

/-- C7 (amended): `NewGoPack` returns the MissingParams error exactly when
the options are nil or the callback is nil; the address is never validated
(an empty address is accepted); otherwise it succeeds, keeping the
address and defaulting Heartbeat to 1000 and MaxPacketNumber to 20 when
they are zero, keeping them otherwise. -/
theorem C7_new_gopack (o : Options) :
    (NewGoPack none = Except.error ErrMissingParams) ∧
    (o.Callback.isNone = true → NewGoPack (some o) = Except.error ErrMissingParams) ∧
    (o.Callback.isSome = true →
      (NewGoPack (some o)).toOption.map (fun g => g.opts.Address) = some o.Address ∧
      (NewGoPack (some o)).toOption.map (fun g => g.opts.Heartbeat) =
        some (if o.Heartbeat = 0 then 1000 else o.Heartbeat) ∧
      (NewGoPack (some o)).toOption.map (fun g => g.opts.MaxPacketNumber) =
        some (if o.MaxPacketNumber = 0 then 20 else o.MaxPacketNumber)) := by
  refine ⟨rfl, ?_, ?_⟩
  · intro h
    simp [NewGoPack, h]
  · intro h
    cases hc : o.Callback with
    | none =>
      rw [hc] at h
      simp at h
    | some cb =>
      by_cases hmp : o.MaxPacketNumber = 0 <;> by_cases hhb : o.Heartbeat = 0 <;>
        by_cases hst : o.Storage.isNone = true <;>
          refine ⟨?_, ?_, ?_⟩ <;>
            · simp [NewGoPack, hc, hmp, hhb, hst]
              exact ⟨_, rfl, rfl⟩

/-- The callback used by the C7 witness. -/
def exampleCallback : List Nat → Option String → Unit := fun _ _ => ()

/-- C7 witness options: callback present, zero heartbeat and packet count. -/
def exampleOptions : Options :=
  { Address := "localhost:8080", Callback := some exampleCallback,
    MaxPacketNumber := 0, Storage := none, Heartbeat := 0 }

/-- C7 witness: `NewGoPack` on options holding a callback and zero
heartbeat and packet-count succeeds with defaults 1000 and 20. -/
theorem C7_witness :
    exampleOptions.Callback.isSome = true ∧
    (NewGoPack (some exampleOptions)).toOption.map (fun g => g.opts.Heartbeat) = some 1000 ∧
    (NewGoPack (some exampleOptions)).toOption.map (fun g => g.opts.MaxPacketNumber) = some 20 := by
  have h := (C7_new_gopack exampleOptions).2.2 rfl
  exact ⟨rfl, by simpa [exampleOptions] using h.2.1, by simpa [exampleOptions] using h.2.2⟩
